/-
  Verification of the syncthing synchronization engine against its
  natural-language specification.

  The development shallowly embeds the relevant parts of the source:
  * lib/config/wrapper.go — the configuration wrapper (Replace / Set* /
    RemoveDevice, the verify-then-commit subscriber protocol, the
    requiresRestart latch, AddOrUpdatePendingFolder),
  * lib/syncthing (App startup / stop, checkShortIDs),
  * parts of the model whose implementation is not in the source tree are
    modelled from the specification text (marked `Modelled from the spec`).

  Machine integers that matter are modelled as Nat/Int; byte strings as
  List Nat; Go maps keyed by device ID as association lists whose keys are
  pairwise distinct where that matters.
-/
import Mathlib

namespace Syncthing

/-- A device identifier: in the source a 32-byte SHA-256 of the device
certificate DER.  We model it as the list of its bytes. -/
structure DeviceID where
  bytes : List Nat
deriving DecidableEq, Repr

/-- DeviceID.Short(): the first 8 bytes (64 bits) of the device ID,
used as a compact key in vector clocks. -/
def DeviceID.short (d : DeviceID) : List Nat :=
  d.bytes.take 8

/-- The zero DeviceID (`protocol.EmptyDeviceID` / unset `IntroducedBy`). -/
def DeviceID.empty : DeviceID := ⟨[]⟩

/-- config.ObservedFolder: a pending folder observation (time, id, label). -/
structure ObservedFolder where
  time : Nat
  id : String
  label : String
deriving DecidableEq, Repr

/-- config.FolderDeviceConfiguration: membership of a device in a folder,
with the introducer that added it (zero if added locally). -/
structure FolderDeviceConfiguration where
  deviceID : DeviceID
  introducedBy : DeviceID
deriving DecidableEq, Repr

/-- config.DeviceConfiguration, restricted to the fields the claims
touch. -/
structure DeviceConfiguration where
  deviceID : DeviceID
  introducer : Bool
  skipIntroductionRemovals : Bool
  introducedBy : DeviceID
  autoAcceptFolders : Bool
  pendingFolders : List ObservedFolder
deriving DecidableEq, Repr

/-- config.FolderConfiguration, restricted to the fields the claims
touch. -/
structure FolderConfiguration where
  id : String
  label : String
  path : String
  folderDevices : List FolderDeviceConfiguration
  paused : Bool
  maxConflicts : Int
  modTimeWindowS : Nat
deriving DecidableEq, Repr

/-- config.OptionsConfiguration.  None of the option fields matter for the
claims under proof, so the record content is abstracted into one field. -/
structure OptionsConfiguration where
  payload : Nat
deriving DecidableEq, Repr

/-- config.GUIConfiguration, likewise abstracted. -/
structure GUIConfiguration where
  payload : Nat
deriving DecidableEq, Repr

/-- config.Configuration: the parts of the configuration the wrapper
operations and the model claims manipulate. -/
structure Configuration where
  devices : List DeviceConfiguration
  folders : List FolderConfiguration
  options : OptionsConfiguration
  gui : GUIConfiguration
deriving DecidableEq, Repr

/-! ## The configuration wrapper (lib/config/wrapper.go) -/

/-- The Committer interface of wrapper.go: a subscriber has a
`VerifyConfiguration(from, to)` that may reject a transition and a
`CommitConfiguration(from, to)` that reports whether the new
configuration was applied (false means "restart needed"). -/
structure Committer (Err : Type) where
  verifyConfiguration : Configuration → Configuration → Option Err
  commitConfiguration : Configuration → Configuration → Bool

/-- The environment of a wrapper: `Configuration.clean` (whose body lives
outside the given sources, kept abstract: it may normalize the incoming
configuration or reject it with an error) and the list of subscribed
Committers. -/
structure WrapperEnv (Err : Type) where
  clean : Configuration → Except Err Configuration
  subs : List (Committer Err)

/-- The mutable state of a wrapper: the wrapped configuration and the
atomic `requiresRestart` flag. -/
structure WrapperState where
  cfg : Configuration
  requiresRestart : Bool
deriving DecidableEq, Repr

/-- The first verification error among the subscribers, in subscription
order — wrapper.go's replaceLocked loop over `w.subs` returns the first
non-nil `VerifyConfiguration` result. -/
def firstVerifyError {Err : Type} (subs : List (Committer Err)) (fromCfg toCfg : Configuration) :
    Option Err :=
  subs.findSome? fun c => c.verifyConfiguration fromCfg toCfg

/-- The outcome of one wrapper transition: the state afterwards, the
returned error (if any), and the list of `CommitConfiguration` results in
subscriber order (empty exactly when no subscriber was committed to). -/
structure ReplaceResult (Err : Type) where
  state : WrapperState
  result : Except Err Unit
  commits : List Bool

/-- wrapper.go `replaceLocked`: clean the incoming configuration, let every
subscriber verify it (aborting on the first error), then swap the wrapped
configuration and run `CommitConfiguration` on every subscriber, latching
`requiresRestart` when any commit reports false. -/
def replaceLocked {Err : Type} (env : WrapperEnv Err) (s : WrapperState)
    (toCfg : Configuration) : ReplaceResult Err :=
  match env.clean toCfg with
  | .error e => ⟨s, .error e, []⟩
  | .ok to' =>
    match firstVerifyError env.subs s.cfg to' with
    | some e => ⟨s, .error e, []⟩
    | none =>
      let rs := env.subs.map fun c => c.commitConfiguration s.cfg to'
      ⟨⟨to', s.requiresRestart || rs.any (fun b => !b)⟩, .ok (), rs⟩

/-- The device-upsert step of wrapper.go `SetDevices`: replace the first
device with the same ID, or append. -/
def upsertDevice : List DeviceConfiguration → DeviceConfiguration → List DeviceConfiguration
  | [], d => [d]
  | x :: xs, d => if x.deviceID = d.deviceID then d :: xs else x :: upsertDevice xs d

/-- The folder-upsert step of wrapper.go `SetFolder`: replace the first
folder with the same ID, or append. -/
def upsertFolder : List FolderConfiguration → FolderConfiguration → List FolderConfiguration
  | [], f => [f]
  | x :: xs, f => if x.id = f.id then f :: xs else x :: upsertFolder xs f

/-- wrapper.go `RemoveDevice`: remove the first device with the given ID;
`none` when no device matches (in which case the wrapper performs no
transition at all). -/
def removeFirstDevice : List DeviceConfiguration → DeviceID → Option (List DeviceConfiguration)
  | [], _ => none
  | x :: xs, i =>
    if x.deviceID = i then some xs
    else (removeFirstDevice xs i).map (fun ys => x :: ys)

/-- The configuration-transition operations of the Wrapper interface. -/
inductive WrapperOp where
  | replace (cfg : Configuration)
  | setDevices (devs : List DeviceConfiguration)
  | setDevice (dev : DeviceConfiguration)
  | removeDevice (id : DeviceID)
  | setFolder (fld : FolderConfiguration)
  | setOptions (opts : OptionsConfiguration)
  | setGUI (gui : GUIConfiguration)

/-- The candidate configuration each wrapper operation hands to
`replaceLocked`, computed from the current state exactly as the Go
methods build `newCfg`; `none` when the operation performs no transition
(RemoveDevice with an unknown ID). -/
def opTarget (op : WrapperOp) (s : WrapperState) : Option Configuration :=
  match op with
  | .replace cfg => some cfg
  | .setDevices devs => some { s.cfg with devices := devs.foldl upsertDevice s.cfg.devices }
  | .setDevice dev => some { s.cfg with devices := [dev].foldl upsertDevice s.cfg.devices }
  | .removeDevice i => (removeFirstDevice s.cfg.devices i).map
      (fun ds => { s.cfg with devices := ds })
  | .setFolder fld => some { s.cfg with folders := upsertFolder s.cfg.folders fld }
  | .setOptions opts => some { s.cfg with options := opts }
  | .setGUI gui => some { s.cfg with gui := gui }

/-- Run one wrapper operation: build the candidate configuration and hand
it to `replaceLocked`; an operation without a transition returns nil with
a no-op waiter and no commits. -/
def applyOp {Err : Type} (env : WrapperEnv Err) (s : WrapperState) (op : WrapperOp) :
    ReplaceResult Err :=
  match opTarget op s with
  | some tc => replaceLocked env s tc
  | none => ⟨s, .ok (), []⟩

/-- Run a sequence of wrapper operations, threading the state. -/
def applyOps {Err : Type} (env : WrapperEnv Err) (s : WrapperState) :
    List WrapperOp → WrapperState
  | [] => s
  | op :: ops => applyOps env (applyOp env s op).state ops

/-! ## Pending folders (wrapper.go AddOrUpdatePendingFolder) -/

/-- The inner loop of wrapper.go `AddOrUpdatePendingFolder` over one
device's `PendingFolders`: update the label and time of the first entry
with the given folder ID, or append a fresh observation. -/
def addOrUpdateObserved (now : Nat) (i lbl : String) :
    List ObservedFolder → List ObservedFolder
  | [] => [⟨now, i, lbl⟩]
  | o :: os =>
    if o.id = i then { o with label := lbl, time := now } :: os
    else o :: addOrUpdateObserved now i lbl os

/-- wrapper.go `AddOrUpdatePendingFolder`: find the device with the given
ID and update or append the pending-folder observation in it; `none`
models the `panic("bug: adding pending folder for non-existing device")`
taken when no device matches. -/
def addOrUpdatePendingFolder (now : Nat) (i lbl : String) (device : DeviceID) :
    List DeviceConfiguration → Option (List DeviceConfiguration)
  | [] => none
  | d :: ds =>
    if d.deviceID = device then
      some ({ d with pendingFolders := addOrUpdateObserved now i lbl d.pendingFolders } :: ds)
    else
      (addOrUpdatePendingFolder now i lbl device ds).map (fun es => d :: es)

/-! ## App startup and stop (lib/syncthing / src/unnamed/part_001) -/

/-- The loop of checkShortIDs, carrying the short-ID map as an association
list from short ID to the device that claimed it.  Returns the conflicting
pair `(deviceID, otherID)` reported by the error, if any. -/
def checkShortIDsFrom (seen : List (List Nat × DeviceID)) :
    List DeviceID → Option (DeviceID × DeviceID)
  | [] => none
  | d :: ds =>
    match seen.find? (fun p => decide (p.fst = d.short)) with
    | some p => some (d, p.snd)
    | none => checkShortIDsFrom ((d.short, d) :: seen) ds

/-- checkShortIDs: verify that the configured devices all have distinct
initial 64 bits (the Go code iterates the wrapper's device map, whose keys
are the distinct device IDs of the configuration). -/
def checkShortIDs (cfg : Configuration) : Option (DeviceID × DeviceID) :=
  checkShortIDsFrom [] (cfg.devices.map (fun d => d.deviceID))

/-- The classes of error `App.startup` can return, in the order the
corresponding steps run.  Steps of startup that cannot fail or that do
not start folder runners are omitted. -/
inductive StartupError (Err : Type) where
  | shortIDConflict (id other : DeviceID)
  | dbSchema (e : Err)
  | guiSetup (e : Err)
deriving DecidableEq, Repr

/-- The control flow of `App.startup` as far as errors and folder runners
are concerned: `checkShortIDs` runs first and aborts startup; the database
schema update may abort next; only then is every non-paused configured
folder added to the model and started; the GUI setup may fail afterwards.
The second component lists the folders started during the call. -/
def startupModel {Err : Type} (cfg : Configuration)
    (schemaUpdate : Except Err Unit) (guiSetup : Except Err Unit) :
    Except (StartupError Err) Unit × List String :=
  match checkShortIDs cfg with
  | some (d, o) => (.error (.shortIDConflict d o), [])
  | none =>
    match schemaUpdate with
    | .error e => (.error (.dbSchema e), [])
    | .ok _ =>
      let started := (cfg.folders.filter (fun f => !f.paused)).map (fun f => f.id)
      match guiSetup with
      | .error e => (.error (.guiSetup e), started)
      | .ok _ => (.ok (), started)

/-- The exit statuses of the App (ExitSuccess, ExitError, ExitRestart,
ExitUpgrade). -/
inductive ExitStatus where
  | success
  | error
  | restart
  | upgrade
deriving DecidableEq, Repr

/-- The stop-related state of an App: whether `stopOnce` has fired, the
recorded exit status and error, and whether the `stop` channel has been
closed. -/
structure AppStopState (Err : Type) where
  stopOnceDone : Bool
  exitStatus : ExitStatus
  err : Option Err
  stopClosed : Bool
deriving DecidableEq, Repr

/-- The state of a freshly constructed App: `exitStatus` is the zero value
ExitSuccess, no error, the once not fired, the channel open. -/
def initialAppStopState (Err : Type) : AppStopState Err :=
  ⟨false, .success, none, false⟩

/-- App.stopWithErr (and Stop, which passes a nil error): inside
`stopOnce`, record the stop reason and error unless a status other than
ExitSuccess was already set, and close the stop channel; in any case
return the effective exit status. -/
def stopWithErr {Err : Type} (s : AppStopState Err) (stopReason : ExitStatus)
    (e : Option Err) : AppStopState Err × ExitStatus :=
  if s.stopOnceDone then (s, s.exitStatus)
  else
    let s1 := if s.exitStatus = .success then { s with exitStatus := stopReason, err := e } else s
    let s2 := { s1 with stopOnceDone := true, stopClosed := true }
    (s2, s2.exitStatus)

/-- Run a sequence of Stop calls, threading the stop state. -/
def applyStops {Err : Type} (s : AppStopState Err) :
    List (ExitStatus × Option Err) → AppStopState Err
  | [] => s
  | c :: cs => applyStops (stopWithErr s c.fst c.snd).fst cs

/-! ## Protocol messages and the model dispatch

The implementation of lib/model (ClusterConfig dispatch, Request, the
scanner) is not among the given sources — only its tests are.  The
definitions below are therefore modelled from the specification text, as
their doc comments state. -/

/-- protocol.Device as carried inside a ClusterConfig folder: the device
ID with its introducer-related flags. -/
structure ProtocolDevice where
  id : DeviceID
  introducer : Bool
  skipIntroductionRemovals : Bool
deriving DecidableEq, Repr

/-- protocol.Folder inside a ClusterConfig: folder ID and label plus the
sender's device roster for that folder. -/
structure ProtocolFolder where
  id : String
  label : String
  devices : List ProtocolDevice
deriving DecidableEq, Repr

/-- protocol.ClusterConfig: the folders the sending peer shares with us,
with their device rosters. -/
structure ClusterConfigMsg where
  folders : List ProtocolFolder
deriving DecidableEq, Repr

/-- Whether the ClusterConfig lists device `dev` in a folder with the
given ID. -/
def ccListsDeviceInFolder (cc : ClusterConfigMsg) (folderID : String) (dev : DeviceID) : Bool :=
  cc.folders.any fun f => f.id = folderID && f.devices.any (fun d => d.id = dev)

/-- The folder-level addition step of the introducer logic: devices the
peer's ClusterConfig lists for this folder that are not yet in the
folder's device set are appended, marked as introduced by `p`. -/
def folderAddDevices (p : DeviceID) (cc : ClusterConfigMsg) (f : FolderConfiguration) :
    FolderConfiguration :=
  match cc.folders.find? (fun cf => decide (cf.id = f.id)) with
  | none => f
  | some cf =>
    { f with folderDevices := f.folderDevices ++
        ((cf.devices.filter
            (fun d => !(f.folderDevices.any (fun fd => fd.deviceID = d.id)))).map
          (fun d => ⟨d.id, p⟩)) }

/-- The devices the peer's ClusterConfig lists for folders that are
configured locally, in folder order. -/
def ccListedDevices (cc : ClusterConfigMsg) (cfg : Configuration) : List ProtocolDevice :=
  cfg.folders.foldl (fun acc f =>
    match cc.folders.find? (fun cf => decide (cf.id = f.id)) with
    | none => acc
    | some cf => acc ++ cf.devices) []

/-- The roster-level addition step of the introducer logic: a listed
device unknown to the roster is appended with `introducedBy = p`. -/
def rosterAddStep (p : DeviceID) (devs : List DeviceConfiguration) (d : ProtocolDevice) :
    List DeviceConfiguration :=
  if devs.any (fun x => x.deviceID = d.id) then devs
  else devs ++ [{ deviceID := d.id, introducer := d.introducer,
                  skipIntroductionRemovals := d.skipIntroductionRemovals,
                  introducedBy := p, autoAcceptFolders := false,
                  pendingFolders := [] }]

/-- Modelled from the spec: the addition half of the introducer logic of
the model's ClusterConfig dispatch, whose implementation is not among the
given sources.  "If P is flagged as introducer, its ClusterConfig's
per-folder device list may add new devices to the local config (as
introducedBy=P)": every device the peer lists for a locally configured
folder is added to that folder's device set (introduced by `p`), and to
the device roster when not yet known. -/
def introducerAdditions (p : DeviceID) (cc : ClusterConfigMsg) (cfg : Configuration) :
    Configuration :=
  { cfg with folders := cfg.folders.map (folderAddDevices p cc),
             devices := (ccListedDevices cc cfg).foldl (rosterAddStep p) cfg.devices }

/-- The folder-level removal step of the introducer logic: folder-device
entries introduced by `p` that the ClusterConfig no longer lists for this
folder are dropped. -/
def folderRemoveDevices (p : DeviceID) (cc : ClusterConfigMsg) (f : FolderConfiguration) :
    FolderConfiguration :=
  { f with folderDevices := f.folderDevices.filter fun fd =>
      !(fd.introducedBy = p && !ccListsDeviceInFolder cc f.id fd.deviceID) }

/-- Modelled from the spec: the removal half of the introducer logic,
whose implementation is not among the given sources.  "If P later drops
devices from its ClusterConfig and P remains the sole introducer of those
devices in a folder, they are removed from that folder (and from the
device roster if no other folder retains them)": every folder-device entry
introduced by `p` that the ClusterConfig no longer lists for that folder
is dropped, and afterwards every roster device introduced by `p` that no
folder retains is dropped. -/
def introducerRemovals (p : DeviceID) (cc : ClusterConfigMsg) (cfg : Configuration) :
    Configuration :=
  { cfg with
    folders := cfg.folders.map (folderRemoveDevices p cc),
    devices := cfg.devices.filter fun d =>
      !(d.introducedBy = p &&
        !((cfg.folders.map (folderRemoveDevices p cc)).any fun f =>
            f.folderDevices.any (fun fd => fd.deviceID = d.deviceID))) }

/-- Modelled from the spec: the introducer handling of the model's
ClusterConfig dispatch, whose implementation is not among the given
sources.  The logic applies only when the sending peer is configured with
the introducer flag; additions are always applied, removals only when the
peer's `SkipIntroductionRemovals` is unset. -/
def handleIntroductions (p : DeviceID) (cc : ClusterConfigMsg) (cfg : Configuration) :
    Configuration :=
  match cfg.devices.find? (fun d => decide (d.deviceID = p)) with
  | none => cfg
  | some pd =>
    if pd.introducer then
      let cfg1 := introducerAdditions p cc cfg
      if pd.skipIntroductionRemovals then cfg1 else introducerRemovals p cc cfg1
    else cfg

/-- Whether a device with the given ID appears in the device set of any
folder with the given folder ID. -/
def folderRetains (cfg : Configuration) (folderID : String) (dev : DeviceID) : Bool :=
  cfg.folders.any fun f =>
    f.id = folderID && f.folderDevices.any (fun fd => fd.deviceID = dev)

/-! ## Model.Request -/

/-- The typed request errors of the protocol (`generic`, `no-such-file`,
`invalid-file`). -/
inductive RequestError where
  | generic
  | noSuchFile
  | invalidFile
deriving DecidableEq, Repr

/-- Whether the configuration shares a folder with the given device. -/
def folderSharedWith (cfg : Configuration) (folderID : String) (dev : DeviceID) : Bool :=
  cfg.folders.any fun f =>
    f.id = folderID && f.folderDevices.any (fun fd => fd.deviceID = dev)

/-- Whether a folder-relative path contains a `..` component. -/
def hasParentComponent (name : String) : Bool :=
  (name.splitOn "/").any (fun c => c = "..")

/-- Modelled from the spec: `Model.Request`, whose implementation is not
among the given sources.  "Validate folder membership and path safety;
read from local disk; return data or a typed error", with "requests with
negative offset, zero size, or size exceeding the block rejected".
`files` is the folder's stored local state (name to byte contents). -/
def modelRequest (cfg : Configuration) (files : List (String × List Nat))
    (p : DeviceID) (folderID name : String) (offset size : Int) :
    Except RequestError (List Nat) :=
  if !folderSharedWith cfg folderID p then .error .generic
  else if hasParentComponent name then .error .invalidFile
  else if offset < 0 ∨ size ≤ 0 then .error .generic
  else
    match files.find? (fun pr => decide (pr.fst = name)) with
    | none => .error .noSuchFile
    | some pr =>
      if (pr.snd.length : Int) < offset + size then .error .generic
      else .ok ((pr.snd.drop offset.toNat).take size.toNat)

/-! ## Auto-accepted folders -/

/-- Modelled from the spec: the choice of on-disk directory name for an
auto-accepted folder, whose implementation is not among the given
sources.  "Preferring `label` over `id` for the on-disk directory name,
falling back to `id` on conflict": the first of label, id at which no
filesystem entry exists is used; when entries of both names already exist
no directory name is available (TestAutoAcceptNameConflict shows the
folder is then not accepted at all). -/
def autoAcceptPath (existsOnDisk : String → Bool) (lbl i : String) : Option String :=
  if existsOnDisk lbl = false then some lbl
  else if existsOnDisk i = false then some i
  else none

/-- Modelled from the spec: auto-acceptance of one unknown folder from a
peer's ClusterConfig, whose implementation is not among the given
sources.  "If the local device configuration flags P with
`AutoAcceptFolders=true`, unknown folder IDs in P's ClusterConfig cause a
new folder to be created locally" at the directory chosen by
`autoAcceptPath`, shared with P.  Returns the new folder configuration,
or `none` when nothing is accepted. -/
def handleAutoAccept (cfg : Configuration) (self p : DeviceID)
    (existsOnDisk : String → Bool) (cf : ProtocolFolder) : Option FolderConfiguration :=
  if cfg.folders.any (fun f => f.id = cf.id) then none
  else
    match cfg.devices.find? (fun d => decide (d.deviceID = p)) with
    | none => none
    | some pd =>
      if pd.autoAcceptFolders then
        (autoAcceptPath existsOnDisk cf.label cf.id).map fun pth =>
          { id := cf.id, label := cf.label, path := pth,
            folderDevices := [⟨self, DeviceID.empty⟩, ⟨p, DeviceID.empty⟩],
            paused := false, maxConflicts := -1, modTimeWindowS := 0 }
      else none

/-! ## Vector clocks and the scanner's mod-time window -/

/-- protocol.Vector: a sparse map from short device ID to counter.  For
the claims under proof only `update` is needed. -/
structure VClock where
  counters : List (List Nat × Nat)
deriving DecidableEq, Repr

/-- Vector.Update(short): bump the counter of the given short ID or
insert a fresh counter. -/
def VClock.update (v : VClock) (s : List Nat) : VClock :=
  if v.counters.any (fun c => c.fst = s) then
    ⟨v.counters.map (fun c => if c.fst = s then (c.fst, c.snd + 1) else c)⟩
  else
    ⟨v.counters ++ [(s, 1)]⟩

/-- The stored local FileInfo fields the scanner's change detection
compares, plus the version vector. -/
structure ScannedFile where
  name : String
  size : Nat
  permissions : Nat
  modifiedS : Int
  version : VClock
deriving DecidableEq, Repr

/-- Modelled from the spec: the scanner's change detection for one file,
whose implementation is not among the given sources.  "For each visited
entry it compares (modified, size, permissions) against the stored local
FileInfo; unchanged entries are skipped.  Changed entries are … committed"
with `version = local.version.update(self.short)`; "a configurable
`ModTimeWindowS` tolerance suppresses spurious rescans": modification
times differing by less than the window count as equal. -/
def scanFile (window : Nat) (selfShort : List Nat) (old : ScannedFile)
    (curModifiedS : Int) (curSize : Nat) (curPermissions : Nat) : ScannedFile :=
  if (curModifiedS = old.modifiedS ∨ (curModifiedS - old.modifiedS).natAbs < window) ∧
      curSize = old.size ∧ curPermissions = old.permissions then
    old
  else
    { old with modifiedS := curModifiedS, size := curSize,
               permissions := curPermissions,
               version := old.version.update selfShort }

/-! ## Helper lemmas -/

theorem stopWithErr_of_done {Err : Type} (s : AppStopState Err) (h : s.stopOnceDone = true)
    (r : ExitStatus) (e : Option Err) : stopWithErr s r e = (s, s.exitStatus) := by
  simp [stopWithErr, h]

theorem applyStops_of_done {Err : Type} (s : AppStopState Err) (h : s.stopOnceDone = true)
    (cs : List (ExitStatus × Option Err)) : applyStops s cs = s := by
  induction cs with
  | nil => rfl
  | cons c cs ih => rw [applyStops, stopWithErr_of_done s h]; exact ih

/-! ## Theorems for the claims -/

/-- C10: App.Stop is idempotent with first-call-wins semantics: the first
call to Stop / stopWithErr on a fresh App records its status and error and
closes the stop channel; after it, any sequence of further calls leaves
the state unchanged, and every further call returns the status fixed by
the first call. -/
theorem app_stop_first_call_wins (Err : Type) (r₁ : ExitStatus) (e₁ : Option Err)
    (rest : List (ExitStatus × Option Err)) :
    (stopWithErr (initialAppStopState Err) r₁ e₁).snd = r₁ ∧
    (stopWithErr (initialAppStopState Err) r₁ e₁).fst = ⟨true, r₁, e₁, true⟩ ∧
    applyStops (stopWithErr (initialAppStopState Err) r₁ e₁).fst rest =
      (stopWithErr (initialAppStopState Err) r₁ e₁).fst ∧
    ∀ (r : ExitStatus) (e : Option Err),
      stopWithErr (applyStops (stopWithErr (initialAppStopState Err) r₁ e₁).fst rest) r e =
        ((stopWithErr (initialAppStopState Err) r₁ e₁).fst, r₁) := by
  have hfirst : stopWithErr (initialAppStopState Err) r₁ e₁ = (⟨true, r₁, e₁, true⟩, r₁) := by
    simp [stopWithErr, initialAppStopState]
  refine ⟨by rw [hfirst], by rw [hfirst], ?_, ?_⟩
  · rw [hfirst]
    exact applyStops_of_done _ rfl rest
  · intro r e
    rw [hfirst, applyStops_of_done _ rfl rest, stopWithErr_of_done _ rfl]

/-- C9: AddOrUpdatePendingFolder panics (modelled as `none`) exactly when
the given device is not in the configuration's device list; with a present
device it rewrites the first matching device, updating the existing
pending-folder entry with the given ID or appending a new observation, and
returns normally. -/
theorem addOrUpdatePendingFolder_spec (now : Nat) (i lbl : String) (device : DeviceID)
    (devs : List DeviceConfiguration) :
    (addOrUpdatePendingFolder now i lbl device devs = none ↔
      ∀ d ∈ devs, d.deviceID ≠ device) ∧
    (∀ devs', addOrUpdatePendingFolder now i lbl device devs = some devs' →
      ∃ pre d post, devs = pre ++ d :: post ∧
        (∀ d' ∈ pre, d'.deviceID ≠ device) ∧ d.deviceID = device ∧
        devs' = pre ++
          { d with pendingFolders := addOrUpdateObserved now i lbl d.pendingFolders } :: post) ∧
    ∀ os : List ObservedFolder,
      ((∀ o ∈ os, o.id ≠ i) → addOrUpdateObserved now i lbl os = os ++ [⟨now, i, lbl⟩]) ∧
      (∀ o ∈ os, o.id = i →
        (addOrUpdateObserved now i lbl os).length = os.length ∧
        ∃ o' ∈ addOrUpdateObserved now i lbl os, o'.id = i ∧ o'.label = lbl ∧ o'.time = now) := by
  refine ⟨?_, ?_, ?_⟩
  · induction devs with
    | nil => simp [addOrUpdatePendingFolder]
    | cons d ds ih =>
      by_cases h : d.deviceID = device
      · simp [addOrUpdatePendingFolder, h]
      · simp only [addOrUpdatePendingFolder, if_neg h, Option.map_eq_none', ih,
          List.mem_cons]
        constructor
        · rintro hall d' (rfl | hd')
          · exact h
          · exact hall d' hd'
        · intro hall d' hd'
          exact hall d' (Or.inr hd')
  · induction devs with
    | nil => intro devs' h; simp [addOrUpdatePendingFolder] at h
    | cons d ds ih =>
      intro devs' h
      by_cases hd : d.deviceID = device
      · rw [addOrUpdatePendingFolder, if_pos hd] at h
        refine ⟨[], d, ds, by simp, by simp, hd, ?_⟩
        simp at h
        simp [← h]
      · rw [addOrUpdatePendingFolder, if_neg hd] at h
        rcases Option.map_eq_some'.mp h with ⟨es, hes, rfl⟩
        rcases ih es hes with ⟨pre, e, post, hsplit, hpre, he, hres⟩
        refine ⟨d :: pre, e, post, by simp [hsplit], ?_, he, by simp [hres]⟩
        intro d' hd'
        rcases List.mem_cons.mp hd' with rfl | hmem
        · exact hd
        · exact hpre d' hmem
  · intro os
    constructor
    · induction os with
      | nil => intro _; rfl
      | cons o os ih =>
        intro hall
        have ho : ¬ o.id = i := hall o (List.mem_cons_self o os)
        simp only [addOrUpdateObserved, if_neg ho, List.cons_append, List.cons.injEq,
          true_and]
        exact ih fun o' ho' => hall o' (List.mem_cons_of_mem o ho')
    · induction os with
      | nil => intro o ho; simp at ho
      | cons o os ih =>
        intro o' ho' hid
        by_cases h : o.id = i
        · refine ⟨by simp [addOrUpdateObserved, if_pos h], ?_⟩
          refine ⟨{ o with label := lbl, time := now }, ?_, h, rfl, rfl⟩
          simp [addOrUpdateObserved, if_pos h]
        · rcases List.mem_cons.mp ho' with rfl | hmem
          · exact absurd hid h
          · rcases ih o' hmem hid with ⟨hlen, o'', ho'', hprops⟩
            refine ⟨by simp [addOrUpdateObserved, if_neg h, hlen], ?_⟩
            exact ⟨o'', by simp [addOrUpdateObserved, if_neg h, ho''], hprops⟩

/-- C9 witness: with an empty device list the call panics; with the device
present it returns normally and appends the observation. -/
theorem addOrUpdatePendingFolder_spec_witness :
    addOrUpdatePendingFolder 1 "fid" "flabel" ⟨[2]⟩ [] = none :=
  (addOrUpdatePendingFolder_spec 1 "fid" "flabel" ⟨[2]⟩ []).1.mpr (by simp)

/-- C7: with ModTimeWindowS = 2, a file whose modification time moved by
one second rescans as unchanged (version stays v), while a move by two
seconds rescans as changed and commits version v.update(self.short). -/
theorem modTimeWindow_spec (old : ScannedFile) (selfShort : List Nat) :
    scanFile 2 selfShort old (old.modifiedS + 1) old.size old.permissions = old ∧
    (scanFile 2 selfShort old (old.modifiedS + 2) old.size old.permissions).version =
      old.version.update selfShort := by
  constructor
  · have h1 : old.modifiedS + 1 - old.modifiedS = 1 := by ring
    simp [scanFile, h1]
  · have h2 : old.modifiedS + 2 - old.modifiedS = 2 := by ring
    have hne : ¬ old.modifiedS + 2 = old.modifiedS := by omega
    simp [scanFile, h2, hne]

theorem findSome?_of_mem {α β : Type} (f : α → Option β) {l : List α} {a : α} {b : β}
    (ha : a ∈ l) (hb : f a = some b) :
    ∃ b', l.findSome? f = some b' ∧ ∃ a' ∈ l, f a' = some b' := by
  induction l with
  | nil => cases ha
  | cons x xs ih =>
    cases hfx : f x with
    | some b' =>
      exact ⟨b', by rw [List.findSome?_cons, hfx], x, List.mem_cons_self x xs, hfx⟩
    | none =>
      rcases List.mem_cons.mp ha with rfl | hmem
      · rw [hb] at hfx; cases hfx
      · rcases ih hmem with ⟨b', hfs, a', ha', hfa'⟩
        exact ⟨b', by rw [List.findSome?_cons, hfx]; exact hfs,
          a', List.mem_cons_of_mem x ha', hfa'⟩

theorem applyOp_of_target_none {Err : Type} (env : WrapperEnv Err) (s : WrapperState)
    (op : WrapperOp) (h : opTarget op s = none) : applyOp env s op = ⟨s, .ok (), []⟩ := by
  simp only [applyOp, h]

theorem applyOp_of_target_some {Err : Type} (env : WrapperEnv Err) (s : WrapperState)
    (op : WrapperOp) (tc : Configuration) (h : opTarget op s = some tc) :
    applyOp env s op = replaceLocked env s tc := by
  simp only [applyOp, h]

theorem replaceLocked_clean_error {Err : Type} (env : WrapperEnv Err) (s : WrapperState)
    (tc : Configuration) (e : Err) (h : env.clean tc = .error e) :
    replaceLocked env s tc = ⟨s, .error e, []⟩ := by
  simp only [replaceLocked, h]

theorem replaceLocked_verify_error {Err : Type} (env : WrapperEnv Err) (s : WrapperState)
    (tc tc' : Configuration) (e : Err) (h : env.clean tc = .ok tc')
    (hv : firstVerifyError env.subs s.cfg tc' = some e) :
    replaceLocked env s tc = ⟨s, .error e, []⟩ := by
  simp only [replaceLocked, h, hv]

theorem replaceLocked_committed {Err : Type} (env : WrapperEnv Err) (s : WrapperState)
    (tc tc' : Configuration) (h : env.clean tc = .ok tc')
    (hv : firstVerifyError env.subs s.cfg tc' = none) :
    replaceLocked env s tc =
      ⟨⟨tc', s.requiresRestart ||
          (env.subs.map fun c => c.commitConfiguration s.cfg tc').any (fun b => !b)⟩,
        .ok (), env.subs.map fun c => c.commitConfiguration s.cfg tc'⟩ := by
  simp only [replaceLocked, h, hv]

theorem applyOp_restart_mono {Err : Type} (env : WrapperEnv Err) (s : WrapperState)
    (op : WrapperOp) (h : s.requiresRestart = true) :
    (applyOp env s op).state.requiresRestart = true := by
  cases hot : opTarget op s with
  | none => rw [applyOp_of_target_none env s op hot]; exact h
  | some tc =>
    rw [applyOp_of_target_some env s op tc hot]
    cases hc : env.clean tc with
    | error e => rw [replaceLocked_clean_error env s tc e hc]; exact h
    | ok tc' =>
      cases hv : firstVerifyError env.subs s.cfg tc' with
      | some e => rw [replaceLocked_verify_error env s tc tc' e hc hv]; exact h
      | none => rw [replaceLocked_committed env s tc tc' hc hv]; simp [h]

/-- C1: for every configuration transition through the wrapper (Replace,
SetFolder, SetDevice, SetDevices, SetOptions, SetGUI, RemoveDevice): if
cleaning the candidate configuration fails, the operation returns that
error with the wrapped configuration unchanged and no commit invoked; and
if any subscribed Committer's VerifyConfiguration rejects the cleaned
configuration, the operation returns a verification error (the first one)
with the wrapped configuration unchanged and no commit invoked. -/
theorem config_transition_abort {Err : Type} (env : WrapperEnv Err) (s : WrapperState)
    (op : WrapperOp) (tc : Configuration) (hto : opTarget op s = some tc) :
    (∀ e, env.clean tc = .error e → applyOp env s op = ⟨s, .error e, []⟩) ∧
    (∀ tc', env.clean tc = .ok tc' →
      ∀ c ∈ env.subs, ∀ e, c.verifyConfiguration s.cfg tc' = some e →
        ∃ e', applyOp env s op = ⟨s, .error e', []⟩ ∧
          ∃ c' ∈ env.subs, c'.verifyConfiguration s.cfg tc' = some e') := by
  have happ : applyOp env s op = replaceLocked env s tc :=
    applyOp_of_target_some env s op tc hto
  constructor
  · intro e he
    rw [happ, replaceLocked_clean_error env s tc e he]
  · intro tc' hok c hc e he
    rcases findSome?_of_mem (fun c => c.verifyConfiguration s.cfg tc') hc he with
      ⟨e', hfs, c', hc', he'⟩
    have hfv : firstVerifyError env.subs s.cfg tc' = some e' := hfs
    refine ⟨e', ?_, c', hc', he'⟩
    rw [happ, replaceLocked_verify_error env s tc tc' e' hok hfv]

/-- C1 witness: a wrapper whose clean step rejects leaves the state
unchanged, returns the error and commits to nobody. -/
theorem config_transition_abort_witness :
    @applyOp Nat ⟨fun _ => .error 7, []⟩ ⟨⟨[], [], ⟨0⟩, ⟨0⟩⟩, false⟩
        (.setOptions ⟨1⟩) =
      ⟨⟨⟨[], [], ⟨0⟩, ⟨0⟩⟩, false⟩, .error 7, []⟩ :=
  (config_transition_abort ⟨fun _ => .error 7, []⟩ ⟨⟨[], [], ⟨0⟩, ⟨0⟩⟩, false⟩
    (.setOptions ⟨1⟩) _ rfl).1 7 rfl

/-- C6: when a committed configuration transition has any subscriber's
CommitConfiguration return false, the wrapper's requiresRestart flag
becomes true; and the flag is never cleared: it stays true under every
further sequence of wrapper operations. -/
theorem requiresRestart_latch {Err : Type} (env : WrapperEnv Err) (s : WrapperState)
    (op : WrapperOp) (ops : List WrapperOp) :
    (false ∈ (applyOp env s op).commits → (applyOp env s op).state.requiresRestart = true) ∧
    (s.requiresRestart = true → (applyOps env s ops).requiresRestart = true) := by
  constructor
  · intro hmem
    cases hot : opTarget op s with
    | none =>
      rw [applyOp_of_target_none env s op hot] at hmem
      simp at hmem
    | some tc =>
      rw [applyOp_of_target_some env s op tc hot] at hmem ⊢
      cases hc : env.clean tc with
      | error e =>
        rw [replaceLocked_clean_error env s tc e hc] at hmem
        simp at hmem
      | ok tc' =>
        cases hv : firstVerifyError env.subs s.cfg tc' with
        | some e =>
          rw [replaceLocked_verify_error env s tc tc' e hc hv] at hmem
          simp at hmem
        | none =>
          rw [replaceLocked_committed env s tc tc' hc hv] at hmem ⊢
          have hany : (env.subs.map fun c => c.commitConfiguration s.cfg tc').any
              (fun b => !b) = true :=
            List.any_eq_true.mpr ⟨false, hmem, rfl⟩
          simp [hany]
  · intro h
    induction ops generalizing s with
    | nil => exact h
    | cons op' ops' ih => rw [applyOps]; exact ih _ (applyOp_restart_mono env s op' h)

/-- C6 witness: a subscriber whose commit reports false flips the flag on
a committed transition. -/
theorem requiresRestart_latch_witness :
    (@applyOp Nat ⟨fun c => .ok c, [⟨fun _ _ => none, fun _ _ => false⟩]⟩
        ⟨⟨[], [], ⟨0⟩, ⟨0⟩⟩, false⟩ (.setOptions ⟨1⟩)).state.requiresRestart = true :=
  (requiresRestart_latch ⟨fun c => .ok c, [⟨fun _ _ => none, fun _ _ => false⟩]⟩
    ⟨⟨[], [], ⟨0⟩, ⟨0⟩⟩, false⟩ (.setOptions ⟨1⟩) []).1
    (by simp [applyOp, opTarget, replaceLocked, firstVerifyError, List.findSome?])

/-- C4: Model.Request returns an error exactly when the requesting device
does not share the folder, the name has a `..` component, the offset is
negative, the size is not positive, the name is not stored in the folder,
or the requested range exceeds the stored file; otherwise it returns
exactly the requested byte range of the stored file, of the requested
size. -/
theorem modelRequest_spec (cfg : Configuration) (files : List (String × List Nat))
    (p : DeviceID) (folderID name : String) (offset size : Int) :
    ((∃ e, modelRequest cfg files p folderID name offset size = .error e) ↔
      (folderSharedWith cfg folderID p = false ∨ hasParentComponent name = true ∨
       offset < 0 ∨ size ≤ 0 ∨ (∀ pr ∈ files, pr.fst ≠ name) ∨
       (∃ pr, files.find? (fun q => decide (q.fst = name)) = some pr ∧
         (pr.snd.length : Int) < offset + size))) ∧
    (∀ bs, modelRequest cfg files p folderID name offset size = .ok bs →
      ∃ pr, files.find? (fun q => decide (q.fst = name)) = some pr ∧
        bs = (pr.snd.drop offset.toNat).take size.toNat ∧ bs.length = size.toNat) := by
  by_cases h1 : folderSharedWith cfg folderID p = true
  · by_cases h2 : hasParentComponent name = true
    · refine ⟨⟨fun _ => Or.inr (Or.inl h2),
        fun _ => ⟨.invalidFile, by simp [modelRequest, h1, h2]⟩⟩, ?_⟩
      intro bs hbs
      rw [modelRequest] at hbs
      simp [h1, h2] at hbs
    · have h2' : hasParentComponent name = false := by simpa using h2
      by_cases h3 : offset < 0 ∨ size ≤ 0
      · refine ⟨⟨fun _ => ?_, fun _ => ⟨.generic, by simp [modelRequest, h1, h2', h3]⟩⟩, ?_⟩
        · rcases h3 with h3 | h3
          · exact Or.inr (Or.inr (Or.inl h3))
          · exact Or.inr (Or.inr (Or.inr (Or.inl h3)))
        · intro bs hbs
          rw [modelRequest] at hbs
          simp [h1, h2', h3] at hbs
      · cases hf : files.find? (fun q => decide (q.fst = name)) with
        | none =>
          have hnone : ∀ pr ∈ files, pr.fst ≠ name := by
            intro pr hpr
            have := List.find?_eq_none.mp hf pr hpr
            simpa using this
          refine ⟨⟨fun _ => Or.inr (Or.inr (Or.inr (Or.inr (Or.inl hnone)))),
            fun _ => ⟨.noSuchFile, by simp [modelRequest, h1, h2', h3, hf]⟩⟩, ?_⟩
          intro bs hbs
          rw [modelRequest] at hbs
          simp [h1, h2', h3, hf] at hbs
        | some pr =>
          by_cases h5 : (pr.snd.length : Int) < offset + size
          · refine ⟨⟨fun _ => Or.inr (Or.inr (Or.inr (Or.inr (Or.inr ⟨pr, rfl, h5⟩)))),
              fun _ => ⟨.generic, by simp [modelRequest, h1, h2', h3, hf, h5]⟩⟩, ?_⟩
            intro bs hbs
            rw [modelRequest] at hbs
            simp [h1, h2', h3, hf, h5] at hbs
          · have heq : modelRequest cfg files p folderID name offset size =
                .ok ((pr.snd.drop offset.toNat).take size.toNat) := by
              simp [modelRequest, h1, h2', h3, hf, h5]
            constructor
            · constructor
              · rintro ⟨e, he⟩
                rw [heq] at he
                cases he
              · intro hdis
                exfalso
                rcases hdis with h | h | h | h | h | h
                · rw [h1] at h; cases h
                · exact h2 h
                · exact h3 (Or.inl h)
                · exact h3 (Or.inr h)
                · have hmem := List.mem_of_find?_eq_some hf
                  have hfst := List.find?_some hf
                  exact h pr hmem (of_decide_eq_true hfst)
                · rcases h with ⟨pr', hpr', hlt⟩
                  injection hpr' with hpr''
                  subst hpr''
                  exact h5 hlt
            · intro bs hbs
              rw [heq] at hbs
              injection hbs with hbs'
              subst hbs'
              refine ⟨pr, rfl, rfl, ?_⟩
              simp only [List.length_take, List.length_drop]
              omega
  · have h1' : folderSharedWith cfg folderID p = false := by simpa using h1
    refine ⟨⟨fun _ => Or.inl h1',
      fun _ => ⟨.generic, by simp [modelRequest, h1']⟩⟩, ?_⟩
    intro bs hbs
    rw [modelRequest] at hbs
    simp [h1'] at hbs

/-- C4 witness: a request with negative offset is rejected. -/
theorem modelRequest_spec_witness :
    ∃ e, modelRequest ⟨[], [], ⟨0⟩, ⟨0⟩⟩ [] ⟨[1]⟩ "default" "foo" (-1) 5 =
      Except.error e :=
  (modelRequest_spec ⟨[], [], ⟨0⟩, ⟨0⟩⟩ [] ⟨[1]⟩ "default" "foo" (-1) 5).1.mpr
    (Or.inr (Or.inr (Or.inl (by norm_num))))

theorem checkShortIDsFrom_eq_none_iff (seen : List (List Nat × DeviceID))
    (ds : List DeviceID) :
    checkShortIDsFrom seen ds = none ↔
      ((∀ d ∈ ds, ∀ q ∈ seen, q.fst ≠ d.short) ∧
        ds.Pairwise (fun a b => a.short ≠ b.short)) := by
  induction ds generalizing seen with
  | nil => simp [checkShortIDsFrom]
  | cons d ds ih =>
    rw [checkShortIDsFrom]
    cases hf : seen.find? (fun q => decide (q.fst = d.short)) with
    | some q =>
      have hmem : q ∈ seen := List.mem_of_find?_eq_some hf
      have hfst : q.fst = d.short := by
        have hp := List.find?_some hf
        simpa using hp
      constructor
      · intro h
        exact absurd h (by simp)
      · rintro ⟨hall, _⟩
        exact absurd hfst (hall d (List.mem_cons_self d ds) q hmem)
    | none =>
      have hnone : ∀ q ∈ seen, q.fst ≠ d.short := by
        intro q hq
        have := List.find?_eq_none.mp hf q hq
        simpa using this
      rw [ih]
      constructor
      · rintro ⟨hall, hpw⟩
        refine ⟨?_, List.pairwise_cons.mpr ⟨?_, hpw⟩⟩
        · intro d' hd' q hq
          rcases List.mem_cons.mp hd' with rfl | hd''
          · exact hnone q hq
          · exact hall d' hd'' q (List.mem_cons_of_mem _ hq)
        · intro b hb
          exact hall b hb (d.short, d) (List.mem_cons_self _ seen)
      · rintro ⟨hall2, hpw2⟩
        rcases List.pairwise_cons.mp hpw2 with ⟨hhead, htail⟩
        refine ⟨?_, htail⟩
        intro d' hd' q hq
        rcases List.mem_cons.mp hq with rfl | hq'
        · exact hhead d' hd'
        · exact hall2 d' (List.mem_cons_of_mem _ hd') q hq'

/-- C3: checkShortIDs errors exactly when two distinct configured devices
share the initial 64 bits of their device IDs (the hypothesis mirrors the
device map of the wrapper, whose keys are pairwise distinct); and whenever
it errors, startup returns that very error and no folder is ever added or
started. -/
theorem checkShortIDs_spec {Err : Type} (cfg : Configuration)
    (schemaUpdate guiSetup : Except Err Unit)
    (hdist : (cfg.devices.map (fun d => d.deviceID)).Pairwise (· ≠ ·)) :
    ((checkShortIDs cfg).isSome ↔
      ∃ d₁ ∈ cfg.devices, ∃ d₂ ∈ cfg.devices,
        d₁.deviceID ≠ d₂.deviceID ∧ d₁.deviceID.short = d₂.deviceID.short) ∧
    (∀ d o, checkShortIDs cfg = some (d, o) →
      startupModel cfg schemaUpdate guiSetup =
        (.error (.shortIDConflict d o), [])) := by
  constructor
  · have hchar : checkShortIDs cfg = none ↔
        cfg.devices.Pairwise (fun a b => a.deviceID.short ≠ b.deviceID.short) := by
      rw [checkShortIDs, checkShortIDsFrom_eq_none_iff]
      simp [List.pairwise_map]
    have hdist' : cfg.devices.Pairwise (fun a b => a.deviceID ≠ b.deviceID) :=
      List.pairwise_map.mp hdist
    rw [Option.isSome_iff_ne_none]
    constructor
    · intro hne
      have hnpw : ¬ cfg.devices.Pairwise (fun a b => a.deviceID.short ≠ b.deviceID.short) :=
        fun hpw => hne (hchar.mpr hpw)
      have h := List.pairwise_iff_get.not.mp hnpw
      push_neg at h
      rcases h with ⟨i, j, hij, hsh⟩
      refine ⟨cfg.devices.get i, List.get_mem _ i.1 i.2, cfg.devices.get j,
        List.get_mem _ j.1 j.2, List.pairwise_iff_get.mp hdist' i j hij, hsh⟩
    · rintro ⟨d₁, hd₁, d₂, hd₂, hne, hsh⟩ hnone
      have hpw := hchar.mp hnone
      rcases List.mem_iff_get.mp hd₁ with ⟨i, rfl⟩
      rcases List.mem_iff_get.mp hd₂ with ⟨j, rfl⟩
      have hij : i ≠ j := by
        intro hije
        rw [hije] at hne
        exact hne rfl
      rcases lt_or_gt_of_ne hij with hlt | hgt
      · exact List.pairwise_iff_get.mp hpw i j hlt hsh
      · exact List.pairwise_iff_get.mp hpw j i hgt hsh.symm
  · intro d o h
    simp only [startupModel, h]

/-- C3 witness: two devices whose IDs differ only past the eighth byte
collide on ShortID; startup aborts with the conflict error and starts no
folder even though a folder is configured. -/
theorem checkShortIDs_spec_witness :
    startupModel
      ⟨[⟨⟨[0, 0, 0, 0, 0, 0, 0, 0, 1]⟩, false, false, ⟨[]⟩, false, []⟩,
        ⟨⟨[0, 0, 0, 0, 0, 0, 0, 0, 2]⟩, false, false, ⟨[]⟩, false, []⟩],
        [⟨"default", "Default", "testdata", [], false, -1, 0⟩], ⟨0⟩, ⟨0⟩⟩
      (Except.ok () : Except Nat Unit) (Except.ok () : Except Nat Unit) =
      (.error (.shortIDConflict ⟨[0, 0, 0, 0, 0, 0, 0, 0, 2]⟩
        ⟨[0, 0, 0, 0, 0, 0, 0, 0, 1]⟩), []) :=
  (checkShortIDs_spec
    ⟨[⟨⟨[0, 0, 0, 0, 0, 0, 0, 0, 1]⟩, false, false, ⟨[]⟩, false, []⟩,
      ⟨⟨[0, 0, 0, 0, 0, 0, 0, 0, 2]⟩, false, false, ⟨[]⟩, false, []⟩],
      [⟨"default", "Default", "testdata", [], false, -1, 0⟩], ⟨0⟩, ⟨0⟩⟩
    (Except.ok () : Except Nat Unit) (Except.ok () : Except Nat Unit) (by decide)).2
    ⟨[0, 0, 0, 0, 0, 0, 0, 0, 2]⟩ ⟨[0, 0, 0, 0, 0, 0, 0, 0, 1]⟩ (by decide)

theorem folderAddDevices_id (p : DeviceID) (cc : ClusterConfigMsg)
    (f : FolderConfiguration) : (folderAddDevices p cc f).id = f.id := by
  cases h : cc.folders.find? (fun cf => decide (cf.id = f.id)) with
  | none => simp only [folderAddDevices, h]
  | some cf => simp only [folderAddDevices, h]

theorem mem_folderAddDevices (p : DeviceID) (cc : ClusterConfigMsg)
    (f : FolderConfiguration) (fd : FolderDeviceConfiguration)
    (hmem : fd ∈ (folderAddDevices p cc f).folderDevices) :
    fd ∈ f.folderDevices ∨
      (fd.introducedBy = p ∧ ccListsDeviceInFolder cc f.id fd.deviceID = true) := by
  cases h : cc.folders.find? (fun cf => decide (cf.id = f.id)) with
  | none =>
    simp only [folderAddDevices, h] at hmem
    exact Or.inl hmem
  | some cf =>
    simp only [folderAddDevices, h] at hmem
    rcases List.mem_append.mp hmem with h1 | h1
    · exact Or.inl h1
    · rcases List.mem_map.mp h1 with ⟨d, hd, rfl⟩
      have hcf : cf ∈ cc.folders := List.mem_of_find?_eq_some h
      have hcfid : cf.id = f.id := by
        have hp := List.find?_some h
        simpa using hp
      have hd' : d ∈ cf.devices := List.mem_of_mem_filter hd
      refine Or.inr ⟨rfl, ?_⟩
      rw [ccListsDeviceInFolder]
      refine List.any_eq_true.mpr ⟨cf, hcf, ?_⟩
      rw [Bool.and_eq_true]
      exact ⟨decide_eq_true hcfid,
        List.any_eq_true.mpr ⟨d, hd', decide_eq_true rfl⟩⟩

theorem mem_rosterFold (p : DeviceID) (ld : List ProtocolDevice)
    (init : List DeviceConfiguration) (d : DeviceConfiguration)
    (hd : d ∈ ld.foldl (rosterAddStep p) init) :
    d ∈ init ∨ d.introducedBy = p := by
  induction ld generalizing init with
  | nil => exact Or.inl hd
  | cons x xs ih =>
    rw [List.foldl_cons] at hd
    rcases ih (rosterAddStep p init x) hd with hmem | hip
    · by_cases hx : init.any (fun y => y.deviceID = x.id) = true
      · rw [rosterAddStep, if_pos hx] at hmem
        exact Or.inl hmem
      · rw [rosterAddStep, if_neg hx] at hmem
        rcases List.mem_append.mp hmem with h1 | h1
        · exact Or.inl h1
        · have hde := List.mem_singleton.mp h1
          subst hde
          exact Or.inr rfl
    · exact Or.inr hip

/-- C2: when the peer `p` is configured as introducer without
SkipIntroductionRemovals and is the sole introducer of device `dD` in the
folders named `fidF`, dispatching a ClusterConfig from `p` that no longer
lists `dD` in `fidF` removes `dD` from that folder's device set; and if
afterwards no folder at all retains `dD` (and `p` introduced every roster
entry of `dD`), `dD` is removed from the device roster entirely. -/
theorem introducer_removal (cfg : Configuration) (p : DeviceID) (pd : DeviceConfiguration)
    (cc : ClusterConfigMsg) (dD : DeviceID) (fidF : String)
    (hfind : cfg.devices.find? (fun d => decide (d.deviceID = p)) = some pd)
    (hintro : pd.introducer = true)
    (hskip : pd.skipIntroductionRemovals = false)
    (hsole : ∀ f ∈ cfg.folders, f.id = fidF →
      ∀ fd ∈ f.folderDevices, fd.deviceID = dD → fd.introducedBy = p)
    (hcc : ccListsDeviceInFolder cc fidF dD = false) :
    folderRetains (handleIntroductions p cc cfg) fidF dD = false ∧
    ((∀ d ∈ cfg.devices, d.deviceID = dD → d.introducedBy = p) →
     (∀ f ∈ (handleIntroductions p cc cfg).folders, ∀ fd ∈ f.folderDevices,
        fd.deviceID ≠ dD) →
     ∀ d ∈ (handleIntroductions p cc cfg).devices, d.deviceID ≠ dD) := by
  have hred : handleIntroductions p cc cfg =
      introducerRemovals p cc (introducerAdditions p cc cfg) := by
    simp only [handleIntroductions, hfind, hintro, hskip]
    simp
  rw [hred]
  constructor
  · rw [folderRetains, List.any_eq_false]
    intro g hg hcontra
    rw [Bool.and_eq_true] at hcontra
    rcases hcontra with ⟨hgid, hany⟩
    rcases List.any_eq_true.mp hany with ⟨fd, hfd, hfdid⟩
    have hfdid' : fd.deviceID = dD := of_decide_eq_true hfdid
    simp only [introducerRemovals, List.mem_map] at hg
    rcases hg with ⟨f₁, hf₁, rfl⟩
    simp only [introducerAdditions] at hf₁
    rcases List.mem_map.mp hf₁ with ⟨f₀, hf₀, rfl⟩
    have hgid' : (folderRemoveDevices p cc (folderAddDevices p cc f₀)).id = fidF :=
      of_decide_eq_true hgid
    have hfid1 : (folderAddDevices p cc f₀).id = f₀.id := folderAddDevices_id p cc f₀
    have hfid0 : f₀.id = fidF := by
      have hsame : (folderRemoveDevices p cc (folderAddDevices p cc f₀)).id =
          (folderAddDevices p cc f₀).id := rfl
      rw [hsame, hfid1] at hgid'
      exact hgid'
    have hfd' := hfd
    simp only [folderRemoveDevices, List.mem_filter] at hfd'
    rcases hfd' with ⟨hfdmem, hpred⟩
    have hkeep : fd.introducedBy = p →
        ccListsDeviceInFolder cc (folderAddDevices p cc f₀).id fd.deviceID = true := by
      intro hip
      by_contra hno
      rw [Bool.not_eq_true] at hno
      simp [hip, hno] at hpred
    rcases mem_folderAddDevices p cc f₀ fd hfdmem with hmem0 | ⟨hip, hlist⟩
    · have hip := hsole f₀ hf₀ hfid0 fd hmem0 hfdid'
      have hl := hkeep hip
      rw [hfid1, hfid0, hfdid'] at hl
      exact absurd hl (by simp [hcc])
    · rw [hfid0, hfdid'] at hlist
      exact absurd hlist (by simp [hcc])
  · intro hroster hnone d hd heq
    simp only [introducerRemovals, List.mem_filter] at hd
    rcases hd with ⟨hd1, hpred2⟩
    have hany : (((introducerAdditions p cc cfg).folders.map (folderRemoveDevices p cc)).any
        fun f => f.folderDevices.any (fun fd => fd.deviceID = d.deviceID)) = false := by
      rw [List.any_eq_false]
      intro f hf
      rw [Bool.not_eq_true, List.any_eq_false]
      intro fd hfd hcon
      have hfdd : fd.deviceID = d.deviceID := of_decide_eq_true hcon
      rw [heq] at hfdd
      exact hnone f hf fd hfd hfdd
    have hnip : ¬ d.introducedBy = p := by
      intro hip
      simp [hip, hany] at hpred2
    simp only [introducerAdditions] at hd1
    rcases mem_rosterFold p (ccListedDevices cc cfg) cfg.devices d hd1 with hmem | hip
    · exact hnip (hroster d hmem heq)
    · exact hnip hip

/-- C2 witness: with an empty ClusterConfig from the sole introducer of
device ⟨[2]⟩, the folder no longer retains the introduced device. -/
theorem introducer_removal_witness :
    folderRetains
      (handleIntroductions ⟨[1]⟩ ⟨[]⟩
        ⟨[⟨⟨[1]⟩, true, false, ⟨[]⟩, false, []⟩,
          ⟨⟨[2]⟩, false, false, ⟨[1]⟩, false, []⟩],
         [⟨"folder1", "", "testdata", [⟨⟨[1]⟩, ⟨[]⟩⟩, ⟨⟨[2]⟩, ⟨[1]⟩⟩], false, -1, 0⟩,
          ⟨"folder2", "", "testdata", [⟨⟨[1]⟩, ⟨[]⟩⟩, ⟨⟨[2]⟩, ⟨[1]⟩⟩], false, -1, 0⟩],
         ⟨0⟩, ⟨0⟩⟩)
      "folder1" ⟨[2]⟩ = false :=
  (introducer_removal
    ⟨[⟨⟨[1]⟩, true, false, ⟨[]⟩, false, []⟩,
      ⟨⟨[2]⟩, false, false, ⟨[1]⟩, false, []⟩],
     [⟨"folder1", "", "testdata", [⟨⟨[1]⟩, ⟨[]⟩⟩, ⟨⟨[2]⟩, ⟨[1]⟩⟩], false, -1, 0⟩,
      ⟨"folder2", "", "testdata", [⟨⟨[1]⟩, ⟨[]⟩⟩, ⟨⟨[2]⟩, ⟨[1]⟩⟩], false, -1, 0⟩],
     ⟨0⟩, ⟨0⟩⟩
    ⟨[1]⟩ ⟨⟨[1]⟩, true, false, ⟨[]⟩, false, []⟩ ⟨[]⟩ ⟨[2]⟩ "folder1"
    (by decide) (by decide) (by decide) (by decide) (by decide)).1

/-- C5 (amended): with AutoAcceptFolders set for the peer and the folder
ID unknown locally, the accepted folder's directory name is the label
when no filesystem entry of that name exists, and the id when an entry
named label exists but none named id; when entries of both names exist,
no folder is accepted. -/
theorem autoAccept_spec (cfg : Configuration) (self p : DeviceID)
    (existsOnDisk : String → Bool) (cf : ProtocolFolder) (pd : DeviceConfiguration)
    (hunknown : (cfg.folders.any fun f => f.id = cf.id) = false)
    (hfind : cfg.devices.find? (fun d => decide (d.deviceID = p)) = some pd)
    (haa : pd.autoAcceptFolders = true) :
    (existsOnDisk cf.label = false →
      handleAutoAccept cfg self p existsOnDisk cf =
        some { id := cf.id, label := cf.label, path := cf.label,
               folderDevices := [⟨self, DeviceID.empty⟩, ⟨p, DeviceID.empty⟩],
               paused := false, maxConflicts := -1, modTimeWindowS := 0 }) ∧
    (existsOnDisk cf.label = true → existsOnDisk cf.id = false →
      handleAutoAccept cfg self p existsOnDisk cf =
        some { id := cf.id, label := cf.label, path := cf.id,
               folderDevices := [⟨self, DeviceID.empty⟩, ⟨p, DeviceID.empty⟩],
               paused := false, maxConflicts := -1, modTimeWindowS := 0 }) ∧
    (existsOnDisk cf.label = true → existsOnDisk cf.id = true →
      handleAutoAccept cfg self p existsOnDisk cf = none) := by
  refine ⟨?_, ?_, ?_⟩
  · intro h1
    simp [handleAutoAccept, hunknown, hfind, haa, autoAcceptPath, h1]
  · intro h1 h2
    simp [handleAutoAccept, hunknown, hfind, haa, autoAcceptPath, h1, h2]
  · intro h1 h2
    simp [handleAutoAccept, hunknown, hfind, haa, autoAcceptPath, h1, h2]

/-- C5 witness (for the amended claim): with nothing on disk the accepted
folder's directory is the label. -/
theorem autoAccept_spec_witness :
    handleAutoAccept ⟨[⟨⟨[1]⟩, false, false, ⟨[]⟩, true, []⟩], [], ⟨0⟩, ⟨0⟩⟩
      ⟨[9]⟩ ⟨[1]⟩ (fun _ => false) ⟨"I", "L", []⟩ =
      some ⟨"I", "L", "L", [⟨⟨[9]⟩, DeviceID.empty⟩, ⟨⟨[1]⟩, DeviceID.empty⟩],
        false, -1, 0⟩ :=
  (autoAccept_spec ⟨[⟨⟨[1]⟩, false, false, ⟨[]⟩, true, []⟩], [], ⟨0⟩, ⟨0⟩⟩
    ⟨[9]⟩ ⟨[1]⟩ (fun _ => false) ⟨"I", "L", []⟩
    ⟨⟨[1]⟩, false, false, ⟨[]⟩, true, []⟩ rfl rfl rfl).1 rfl

/-- C5 counterexample: the peer has AutoAcceptFolders set, the folder ID
is unknown locally, and a filesystem entry named label already exists
(here every name exists); yet no folder configuration with the folder's
id as its directory name is created — nothing is accepted at all. -/
theorem autoAccept_claim_counterexample :
    (fun (_ : String) => true) "L" = true ∧
    handleAutoAccept ⟨[⟨⟨[1]⟩, false, false, ⟨[]⟩, true, []⟩], [], ⟨0⟩, ⟨0⟩⟩
      ⟨[9]⟩ ⟨[1]⟩ (fun _ => true) ⟨"I", "L", []⟩ = none :=
  ⟨rfl, rfl⟩

end Syncthing
